import Mathlib

/-!
Verification of the session/delivery orchestration layer of
demo/backend/server/app.py (video segmentation propagation server).

The Flask routes in app.py are shallowly embedded as pure Lean functions.
External collaborators that are not part of this repository (the
InferenceAPI predictor, MultipartResponseBuilder, and flask/werkzeug
send_from_directory) are modelled from the specification's description of
their boundary behaviour; each such definition carries a doc comment
starting with "Modelled from the spec:".

Byte strings and file-system paths are modelled as List Char; a directory
tree rooted at a fixed server-side root is modelled as a predicate on the
list of path components (relative to that root) that designates which
component lists name regular files.
-/

/-! ### POSIX path component machinery

Python's str.split('/'), posixpath.normpath and pathlib.PurePosixPath.name
are modelled over List Char, following CPython's implementations.
-/

/-- Python s.split('/') : splits a character list at every '/' character;
the result is never empty, and "".split('/') = [""]. -/
def splitSlash : List Char → List (List Char)
  | [] => [[]]
  | c :: rest =>
    let r := splitSlash rest
    if c = '/' then [] :: r
    else (c :: r.headD []) :: r.tail

/-- The two-character component "..". -/
def dotdot : List Char := ['.', '.']

/-- One step of posixpath.normpath's component loop (relative-path case,
initial_slashes = 0): empty and "." components are dropped, ".." pops the
last accumulated component unless the accumulator is empty or already ends
in "..", and every other component is appended. -/
def normStep (acc : List (List Char)) (comp : List Char) : List (List Char) :=
  if comp = [] ∨ comp = ['.'] then acc
  else if comp ≠ dotdot ∨ acc = [] ∨ acc.getLast? = some dotdot then acc ++ [comp]
  else acc.dropLast

/-- posixpath.normpath of a relative path, as the list of components that
survive normalization (the normalized string is their "/"-join, or "."
when the list is empty). -/
def normComps (comps : List (List Char)) : List (List Char) :=
  comps.foldl normStep []

/-- Python os.path.isabs on POSIX: the path begins with '/'. -/
def isAbs (path : List Char) : Bool := path.headD ' ' == '/'

/-- The structural invariant of normpath's accumulator: every ".."
component stands at the front. -/
def LeadInv (acc : List (List Char)) : Prop :=
  ∃ n clean, acc = List.replicate n dotdot ++ clean ∧ dotdot ∉ clean

/-- pathlib.PurePosixPath(p).name : the last component of the path after
dropping empty and "." components, or "" when no component remains.
(pathlib does not resolve "..", so the name can be "..".) -/
def pathName (s : List Char) : List Char :=
  ((splitSlash s).filter (fun c => decide (¬(c = [] ∨ c = ['.'])))).getLastD []

/-- Modelled from the spec: flask's send_from_directory "resolves a
relative path under a fixed root and fails with a not-found error on any
resolution failure (including traversal attempts)".  Following werkzeug's
safe_join: the empty path joins to the root directory itself (never a
regular file), an absolute path is rejected, the path is normalized with
posixpath.normpath and rejected when the normalized form is ".." or
escapes upward (leading ".." component); otherwise the file named by the
normalized components is served if the directory tree `fs` has a regular
file there, and NotFound is raised otherwise.  `some comps` means the file
at root/comps is served; `none` means NotFound is raised. -/
def sendFromDirectory (fs : List (List Char) → Bool) (path : List Char) :
    Option (List (List Char)) :=
  if path = [] then none
  else if isAbs path then none
  else if (normComps (splitSlash path)).headD [] = dotdot then none
  else if normComps (splitSlash path) = [] then none
  else if fs (normComps (splitSlash path)) then some (normComps (splitSlash path))
  else none

/-! ### Data model -/

/-- The four propagation-job states of a PropagationStatus. -/
inductive PropState where
  | PENDING
  | RUNNING
  | COMPLETE
  | FAILED
deriving DecidableEq, Repr

/-- The status dictionary held by the registry for one session:
state, optional result_path, optional error. -/
structure PropagationStatus where
  state : PropState
  result_path : Option String := none
  error : Option String := none
deriving DecidableEq, Repr

/-- inference.data_types.PropagateInVideoRequest as built by the routes. -/
structure PropagateInVideoRequest where
  type : String
  session_id : String
  start_frame_index : Nat
deriving DecidableEq, Repr

/-- One per-frame result yielded by the inference collaborator; the demo
layer treats it as opaque apart from its to_json serialization. -/
structure PropagateDataResponse where
  json : String
deriving DecidableEq, Repr

/-- chunk.to_json() — the collaborator's serialization of one result. -/
def PropagateDataResponse.to_json (r : PropagateDataResponse) : String := r.json

/-- The InferenceAPI collaborator: its Propagation Session Registry
(session_states, an in-memory map session_id -> PropagationStatus) and an
abstract inference environment giving the finite result sequence that
propagate_in_video yields for a session and start frame. -/
structure InferenceAPI where
  session_states : List (String × PropagationStatus)
  env : String → Nat → List PropagateDataResponse

/-- Errors surfaced by the InferenceAPI boundary. -/
inductive ApiError where
  | notFound
deriving DecidableEq, Repr

/-- Modelled from the spec: get_status(session_id) -> PropagationStatus |
NotFound: read-only snapshot; fails with NotFound if session_id was never
started. -/
def InferenceAPI.get_propagation_status (api : InferenceAPI) (session_id : String) :
    Except ApiError PropagationStatus :=
  match api.session_states.lookup session_id with
  | none => .error .notFound
  | some st => .ok st

/-- Modelled from the spec: start(session_id, start_frame_index) ->
accepted: creates a PENDING entry if none exists for session_id; if an
entry already exists and is RUNNING or PENDING, the call is a no-op (at
most one active background job per session_id).  Returns whether a new
job was actually started.  A terminal (COMPLETE/FAILED) entry may be
restarted (re-invoke semantics of section 7). -/
def InferenceAPI.start_propagate_background (api : InferenceAPI)
    (req : PropagateInVideoRequest) : InferenceAPI × Bool :=
  match api.session_states.lookup req.session_id with
  | some st =>
    if st.state = .PENDING ∨ st.state = .RUNNING then (api, false)
    else
      ({ api with session_states :=
          (req.session_id, ⟨.PENDING, none, none⟩) :: api.session_states }, true)
  | none =>
    ({ api with session_states :=
        (req.session_id, ⟨.PENDING, none, none⟩) :: api.session_states }, true)

/-- Modelled from the spec: inference_api.propagate_in_video yields the
per-frame result sequence for the request; "Side effect: none on the
Registry — streaming mode is independent of the background job path". -/
def InferenceAPI.propagate_in_video (api : InferenceAPI)
    (req : PropagateInVideoRequest) : List PropagateDataResponse :=
  api.env req.session_id req.start_frame_index

/-- Modelled from the spec: MultipartResponseBuilder.build assembles one
self-delimited chunk from a boundary token, a header mapping and a body
payload. -/
structure MultipartChunk where
  boundary : String
  headers : List (String × String)
  body : String
deriving DecidableEq, Repr

/-- MultipartResponseBuilder.build(boundary=..., headers=..., body=...). -/
def MultipartResponseBuilder.build (boundary : String)
    (headers : List (String × String)) (body : String) : MultipartChunk :=
  ⟨boundary, headers, body⟩

/-- Modelled from the spec: get_message renders the chunk — the boundary
marker on its own line, one "Key: Value" line per header, a blank line,
then the raw body bytes. -/
def MultipartChunk.get_message (c : MultipartChunk) : String :=
  "--" ++ c.boundary ++ "\r\n"
    ++ (c.headers.map (fun kv => kv.1 ++ ": " ++ kv.2 ++ "\r\n")).foldl (· ++ ·) ""
    ++ "\r\n" ++ c.body

/-! ### Route embeddings (app.py) -/

/-- The JSON request body of the two POST propagation routes:
data["session_id"] is required, data.get("start_frame_index", 0) is
optional. -/
structure RequestBody where
  session_id : String
  start_frame_index : Option Nat := none
deriving DecidableEq, Repr

/-- gen_track_with_mask_stream(boundary, session_id, start_frame_index):
builds a PropagateInVideoRequest and yields, for each result of
inference_api.propagate_in_video, one chunk built with the four constant
headers and the UTF-8 encoded JSON body.  (The source yields
build(...).get_message(); the chunk structure is kept here and the
rendering is gen_track_with_mask_stream_messages below.  The
autocast_context context manager has no effect on the emitted values.) -/
def gen_track_with_mask_stream (api : InferenceAPI) (boundary : String)
    (session_id : String) (start_frame_index : Nat) : List MultipartChunk :=
  let request : PropagateInVideoRequest :=
    ⟨"propagate_in_video", session_id, start_frame_index⟩
  (api.propagate_in_video request).map (fun chunk =>
    MultipartResponseBuilder.build boundary
      [("Content-Type", "application/json; charset=utf-8"),
       ("Frame-Current", "-1"),
       ("Frame-Total", "-1"),
       ("Mask-Type", "RLE[]")]
      chunk.to_json)

/-- The byte stream actually yielded: each chunk rendered by get_message. -/
def gen_track_with_mask_stream_messages (api : InferenceAPI) (boundary : String)
    (session_id : String) (start_frame_index : Nat) : List String :=
  (gen_track_with_mask_stream api boundary session_id start_frame_index).map
    MultipartChunk.get_message

/-- The streaming Response returned by POST /propagate_in_video. -/
structure StreamResponse where
  mimetype : String
  chunks : List MultipartChunk

/-- POST /propagate_in_video: reads session_id and start_frame_index
(default 0) from the body, streams gen_track_with_mask_stream with
boundary "frame".  The route is paired with the (unchanged) InferenceAPI
state to make its effect on the registry explicit. -/
def propagate_in_video (api : InferenceAPI) (data : RequestBody) :
    InferenceAPI × StreamResponse :=
  let args_session_id := data.session_id
  let args_start_frame_index := data.start_frame_index.getD 0
  let boundary := "frame"
  let frame := gen_track_with_mask_stream api boundary args_session_id
    args_start_frame_index
  (api, ⟨"multipart/x-savi-stream; boundary=" ++ boundary, frame⟩)

/-- make_response(json.dumps({"started": b}), code). -/
structure StartedResponse where
  status_code : Nat
  started : Bool
deriving DecidableEq, Repr

/-- POST /background_propagate: builds the PropagateInVideoRequest from
the body (start_frame_index defaulting to 0), calls
start_propagate_background — discarding its return value — and always
responds 200 with json.dumps({"started": True}). -/
def background_propagate (api : InferenceAPI) (data : RequestBody) :
    InferenceAPI × StartedResponse :=
  let request_obj : PropagateInVideoRequest :=
    ⟨"propagate_in_video", data.session_id, data.start_frame_index.getD 0⟩
  let api1 := (api.start_propagate_background request_obj).1
  (api1, ⟨200, true⟩)

/-- The serialized status returned by GET /propagate_status:
json.dumps of the status dictionary (state, optional result_path,
optional error). -/
structure SerializedStatus where
  state : PropState
  result_path : Option String
  error : Option String
deriving DecidableEq, Repr

/-- json.dumps(status) for a status dictionary. -/
def json_dumps_status (st : PropagationStatus) : SerializedStatus :=
  ⟨st.state, st.result_path, st.error⟩

/-- GET /propagate_status/<session_id>: returns the serialized status from
inference_api.get_propagation_status; a NotFound raised by the
collaborator propagates out of the route. -/
def propagate_status (api : InferenceAPI) (session_id : String) :
    Except ApiError SerializedStatus :=
  match api.get_propagation_status session_id with
  | .error e => .error e
  | .ok status => .ok (json_dumps_status status)

/-- The observable outcome of GET /download_segments. -/
inductive DownloadResult where
  | notReady404
  | notFound404
  | serve (comps : List (List Char))
deriving DecidableEq, Repr

/-- GET /download_segments/<session_id>: looks up the propagation status,
answers 404 "not ready" when status.get("result_path") is falsy (absent
or the empty string), and otherwise serves Path(path).name — the filename
component only — from the SEGMENTS_PATH root as an attachment via
send_from_directory (whose NotFound propagates as notFound404).  A
NotFound from get_propagation_status propagates out of the route. -/
def download_segments (fs : List (List Char) → Bool) (api : InferenceAPI)
    (session_id : String) : Except ApiError DownloadResult :=
  match api.get_propagation_status session_id with
  | .error e => .error e
  | .ok status =>
    let path := status.result_path
    if path = none ∨ path = some "" then .ok .notReady404
    else
      match sendFromDirectory fs (pathName (path.getD "").data) with
      | some comps => .ok (.serve comps)
      | none => .ok .notFound404

/-- The shared shape of the four static media routes: try
send_from_directory(ROOT, path) and turn any failure into
ValueError("resource not found"). -/
def staticFileRoute (fs : List (List Char) → Bool) (path : String) :
    Except String (List (List Char)) :=
  match sendFromDirectory fs path.data with
  | some comps => .ok comps
  | none => .error "resource not found"

/-- GET /<GALLERY_PREFIX>/<path:path>. -/
def send_gallery_video (fs : List (List Char) → Bool) (path : String) :
    Except String (List (List Char)) :=
  staticFileRoute fs path

/-- GET /<POSTERS_PREFIX>/<path:path>. -/
def send_poster_image (fs : List (List Char) → Bool) (path : String) :
    Except String (List (List Char)) :=
  staticFileRoute fs path

/-- GET /<UPLOADS_PREFIX>/<path:path>. -/
def send_uploaded_video (fs : List (List Char) → Bool) (path : String) :
    Except String (List (List Char)) :=
  staticFileRoute fs path

/-- GET /<SEGMENTS_PREFIX>/<path:path> (served as an attachment). -/
def send_segment_file (fs : List (List Char) → Bool) (path : String) :
    Except String (List (List Char)) :=
  staticFileRoute fs path

/-! ### Lemmas about the path machinery -/

theorem mem_of_mem_dropLast {α : Type} {l : List α} {a : α}
    (h : a ∈ l.dropLast) : a ∈ l := by
  rcases l.eq_nil_or_concat' with rfl | ⟨l', b, rfl⟩
  · simp at h
  · rw [List.dropLast_concat] at h
    exact List.mem_append_left _ h

theorem splitSlash_ne_nil (cs : List Char) : splitSlash cs ≠ [] := by
  cases cs with
  | nil => simp [splitSlash]
  | cons c rest => simp only [splitSlash]; split <;> simp

theorem headD_mem {α : Type} {l : List α} (h : l ≠ []) (d : α) : l.headD d ∈ l := by
  cases l with
  | nil => exact absurd rfl h
  | cons a t => exact List.mem_cons_self a t

theorem not_slash_of_mem_splitSlash :
    ∀ (cs : List Char) (c : List Char), c ∈ splitSlash cs → '/' ∉ c := by
  intro cs
  induction cs with
  | nil =>
    intro c hc
    simp [splitSlash] at hc
    simp [hc]
  | cons x rest ih =>
    intro c hc
    simp only [splitSlash] at hc
    by_cases hx : x = '/'
    · rw [if_pos hx] at hc
      rcases List.mem_cons.1 hc with rfl | hc
      · simp
      · exact ih c hc
    · rw [if_neg hx] at hc
      rcases List.mem_cons.1 hc with rfl | hc
      · intro hmem
        rcases List.mem_cons.1 hmem with h | h
        · exact hx h.symm
        · exact ih _ (headD_mem (splitSlash_ne_nil rest) []) h
      · exact ih c (List.mem_of_mem_tail hc)

theorem splitSlash_of_no_slash (cs : List Char) (h : '/' ∉ cs) :
    splitSlash cs = [cs] := by
  induction cs with
  | nil => simp [splitSlash]
  | cons x rest ih =>
    have hx : x ≠ '/' := fun hxe => h (hxe ▸ List.mem_cons_self x rest)
    have hr : '/' ∉ rest := fun hm => h (List.mem_cons_of_mem x hm)
    simp only [splitSlash, if_neg hx, ih hr]
    rfl

theorem mem_normStep {acc : List (List Char)} {comp c : List Char}
    (h : c ∈ normStep acc comp) :
    c ∈ acc ∨ (c = comp ∧ comp ≠ [] ∧ comp ≠ ['.']) := by
  unfold normStep at h
  split at h
  · exact .inl h
  · rename_i h1
    split at h
    · rcases List.mem_append.1 h with h | h
      · exact .inl h
      · refine .inr ⟨List.mem_singleton.1 h, ?_, ?_⟩
        · intro he; exact h1 (.inl he)
        · intro he; exact h1 (.inr he)
    · exact .inl (mem_of_mem_dropLast h)

theorem mem_foldl_normStep :
    ∀ (l : List (List Char)) (acc : List (List Char)) (c : List Char),
      c ∈ List.foldl normStep acc l →
      c ∈ acc ∨ (c ∈ l ∧ c ≠ [] ∧ c ≠ ['.']) := by
  intro l
  induction l with
  | nil => intro acc c h; exact .inl h
  | cons x xs ih =>
    intro acc c h
    rcases ih (normStep acc x) c h with h' | h'
    · rcases mem_normStep h' with h'' | ⟨rfl, hne, hnd⟩
      · exact .inl h''
      · exact .inr ⟨List.mem_cons_self _ _, hne, hnd⟩
    · exact .inr ⟨List.mem_cons_of_mem _ h'.1, h'.2⟩

theorem mem_normComps {l : List (List Char)} {c : List Char}
    (h : c ∈ normComps l) : c ∈ l ∧ c ≠ [] ∧ c ≠ ['.'] := by
  rcases mem_foldl_normStep l [] c h with h' | h'
  · simp at h'
  · exact h'

theorem leadInv_normStep {acc : List (List Char)} (comp : List Char)
    (h : LeadInv acc) : LeadInv (normStep acc comp) := by
  obtain ⟨n, clean, rfl, hcl⟩ := h
  unfold normStep
  split
  · exact ⟨n, clean, rfl, hcl⟩
  split
  · rename_i h1 h2
    by_cases hc : comp = dotdot
    · subst hc
      rcases h2 with h2 | h2 | h2
      · exact absurd rfl h2
      · rcases List.append_eq_nil.1 h2 with ⟨hn, hcn⟩
        refine ⟨1, [], ?_, by simp⟩
        simp [hn, hcn]
      · have hclean : clean = [] := by
          rcases clean.eq_nil_or_concat' with rfl | ⟨c', b, rfl⟩
          · rfl
          · exfalso
            rw [← List.append_assoc, List.getLast?_concat] at h2
            have hb : b = dotdot := by injection h2
            exact hcl (hb ▸ List.mem_append_right _ (List.mem_singleton_self b))
        subst hclean
        refine ⟨n + 1, [], ?_, by simp⟩
        simp [List.replicate_succ']
    · exact ⟨n, clean ++ [comp], by rw [List.append_assoc], by
        intro hm
        rcases List.mem_append.1 hm with hm | hm
        · exact hcl hm
        · exact hc (List.mem_singleton.1 hm).symm⟩
  · rename_i h1 h2
    push_neg at h2
    obtain ⟨hc, hne, hlast⟩ := h2
    have hclean : clean ≠ [] := by
      intro hcln
      subst hcln
      rw [List.append_nil] at hne hlast
      cases n with
      | zero => exact hne rfl
      | succ m =>
        apply hlast
        rw [List.replicate_succ', List.getLast?_concat]
    rcases clean.eq_nil_or_concat' with rfl | ⟨c', b, rfl⟩
    · exact absurd rfl hclean
    · refine ⟨n, c', ?_, fun hm => hcl (List.mem_append_left _ hm)⟩
      rw [← List.append_assoc, List.dropLast_concat]

theorem leadInv_foldl :
    ∀ (l : List (List Char)) (acc : List (List Char)),
      LeadInv acc → LeadInv (List.foldl normStep acc l) := by
  intro l
  induction l with
  | nil => intro acc h; exact h
  | cons x xs ih => intro acc h; exact ih _ (leadInv_normStep x h)

theorem leadInv_normComps (l : List (List Char)) : LeadInv (normComps l) :=
  leadInv_foldl l [] ⟨0, [], rfl, by simp⟩

theorem dotdot_not_mem_of_headD {l : List (List Char)} (h : LeadInv l)
    (hh : l.headD [] ≠ dotdot) : dotdot ∉ l := by
  obtain ⟨n, clean, rfl, hcl⟩ := h
  cases n with
  | zero => simpa using hcl
  | succ m =>
    exfalso
    apply hh
    rw [List.replicate_succ]
    rfl

theorem sendFromDirectory_eq_some {fs : List (List Char) → Bool}
    {path : List Char} {comps : List (List Char)}
    (h : sendFromDirectory fs path = some comps) :
    comps = normComps (splitSlash path) ∧ comps ≠ [] ∧ dotdot ∉ comps ∧
      fs comps = true ∧ ∀ c ∈ comps, c ≠ [] ∧ c ≠ ['.'] ∧ '/' ∉ c := by
  unfold sendFromDirectory at h
  split_ifs at h with hnil habs hhead hnem hfs
  have hc : comps = normComps (splitSlash path) := (Option.some.inj h).symm
  subst hc
  refine ⟨rfl, hnem, ?_, by simpa using hfs, ?_⟩
  · exact dotdot_not_mem_of_headD (leadInv_normComps _) hhead
  · intro c hcm
    obtain ⟨hmem, hne, hnd⟩ := mem_normComps hcm
    exact ⟨hne, hnd, not_slash_of_mem_splitSlash path c hmem⟩

theorem sendFromDirectory_of_isAbs {fs : List (List Char) → Bool}
    {path : List Char} (h : isAbs path = true) :
    sendFromDirectory fs path = none := by
  simp [sendFromDirectory, h]

theorem sendFromDirectory_of_dotdot_head {fs : List (List Char) → Bool}
    {path : List Char}
    (h : (normComps (splitSlash path)).headD [] = dotdot) :
    sendFromDirectory fs path = none := by
  have h' : (normComps (splitSlash path)).head?.getD [] = dotdot := by
    simpa using h
  simp [sendFromDirectory, h']

theorem sendFromDirectory_single {fs : List (List Char) → Bool}
    {name : List Char} {comps : List (List Char)} (hs : '/' ∉ name)
    (h : sendFromDirectory fs name = some comps) : comps = [name] := by
  obtain ⟨hc, hne, hdd, hfs, hall⟩ := sendFromDirectory_eq_some h
  rw [splitSlash_of_no_slash name hs] at hc
  by_cases h0 : name = [] ∨ name = ['.']
  · have hz : normComps [name] = [] := by
      rcases h0 with rfl | rfl <;> simp [normComps, normStep]
    exact absurd (hc.trans hz) hne
  · push_neg at h0
    have hz : normComps [name] = [name] := by
      simp [normComps, normStep, h0.1, h0.2]
    rw [hz] at hc
    exact hc

theorem getLastD_mem {α : Type} {l : List α} (h : l ≠ []) (d : α) :
    l.getLastD d ∈ l := by
  rcases l.eq_nil_or_concat' with rfl | ⟨l', b, rfl⟩
  · exact absurd rfl h
  · rw [List.getLastD_concat]
    exact List.mem_append_right _ (List.mem_singleton_self b)

theorem pathName_cases (s : List Char) :
    pathName s = [] ∨
      (pathName s ≠ [] ∧ pathName s ≠ ['.'] ∧ '/' ∉ pathName s) := by
  unfold pathName
  by_cases hnil :
      (splitSlash s).filter (fun c => decide (¬(c = [] ∨ c = ['.']))) = []
  · left
    rw [hnil]
    rfl
  · right
    have hm := getLastD_mem hnil ([] : List Char)
    have hf := List.mem_filter.1 hm
    have h2 := of_decide_eq_true hf.2
    exact ⟨fun he => h2 (.inl he), fun he => h2 (.inr he),
      not_slash_of_mem_splitSlash s _ hf.1⟩

theorem sendFromDirectory_nil (fs : List (List Char) → Bool) :
    sendFromDirectory fs [] = none := by
  simp [sendFromDirectory]

theorem headers_of_mem_gen {api : InferenceAPI} {boundary sid : String}
    {sfi : Nat} {c : MultipartChunk}
    (h : c ∈ gen_track_with_mask_stream api boundary sid sfi) :
    c.headers = [("Content-Type", "application/json; charset=utf-8"),
      ("Frame-Current", "-1"), ("Frame-Total", "-1"),
      ("Mask-Type", "RLE[]")] := by
  simp only [gen_track_with_mask_stream, List.mem_map] at h
  obtain ⟨r, hr, rfl⟩ := h
  rfl

/-! ### Claims -/

/-- A concrete InferenceAPI whose registry already holds a PENDING entry
for session "s1" (an active background job). -/
def api_pending_s1 : InferenceAPI :=
  ⟨[("s1", ⟨.PENDING, none, none⟩)], fun _ _ => []⟩

/-- C1 as stated is false: with a PENDING (active) job for "s1" already
registered, start_propagate_background reports that no new job was
started, yet the route's response body still carries started = true. -/
theorem C1_counterexample :
    ¬((background_propagate api_pending_s1 ⟨"s1", none⟩).2.started =
      (api_pending_s1.start_propagate_background
        ⟨"propagate_in_video", "s1", 0⟩).2) := by
  decide

/-- C1 (amended): for every POST /background_propagate request, the
"started" field of the JSON response body is the constant true — the
route discards the value returned by start_propagate_background, so the
response does not reflect whether a new background job was actually
started. -/
theorem C1_theorem (api : InferenceAPI) (data : RequestBody) :
    (background_propagate api data).2 = ⟨200, true⟩ := rfl

/-- A concrete InferenceAPI whose registry holds a COMPLETE entry for
session "s2" whose result_path is the empty string. -/
def api_empty_path_s2 : InferenceAPI :=
  ⟨[("s2", ⟨.COMPLETE, some "", none⟩)], fun _ _ => []⟩

/-- C2 as stated is false: for session "s2" the status carries a
result_path (the empty string), yet the route answers 404 "not ready"
instead of streaming, because the code tests Python truthiness
(if not path) rather than presence. -/
theorem C2_counterexample :
    api_empty_path_s2.get_propagation_status "s2" =
        .ok ⟨.COMPLETE, some "", none⟩ ∧
      download_segments (fun _ => true) api_empty_path_s2 "s2" =
        .ok .notReady404 ∧
      (⟨.COMPLETE, some "", none⟩ : PropagationStatus).result_path ≠ none := by
  refine ⟨rfl, rfl, by simp⟩

/-- C2 (amended): GET /download_segments/{session_id} returns the 404
"not ready" response if and only if the session's status carries no
result_path or an empty-string result_path; otherwise, when the filename
component of the stored result_path resolves to a file under the segments
root, it streams that file as an attachment. -/
theorem C2_theorem (fs : List (List Char) → Bool) (api : InferenceAPI)
    (sid : String) (st : PropagationStatus)
    (h : api.get_propagation_status sid = .ok st) :
    ((download_segments fs api sid = .ok .notReady404) ↔
      (st.result_path = none ∨ st.result_path = some "")) ∧
    (∀ s comps, st.result_path = some s → ¬s = "" →
      sendFromDirectory fs (pathName s.data) = some comps →
      download_segments fs api sid = .ok (.serve comps)) := by
  unfold download_segments
  rw [h]
  dsimp only
  constructor
  · by_cases hc : st.result_path = none ∨ st.result_path = some ""
    · simp [hc]
    · rw [if_neg hc]
      constructor
      · intro hser
        cases hsd : sendFromDirectory fs (pathName (st.result_path.getD "").data) with
        | none => rw [hsd] at hser; exact absurd (Except.ok.inj hser) (by simp)
        | some comps => rw [hsd] at hser; exact absurd (Except.ok.inj hser) (by simp)
      · intro hcon
        exact absurd hcon hc
  · intro s comps hs hne hsd
    have hc : ¬(st.result_path = none ∨ st.result_path = some "") := by
      rw [hs]
      simp [hne]
    rw [if_neg hc, hs]
    simp only [Option.getD_some]
    rw [hsd]

/-- C2 witness: a COMPLETE session with a non-empty result_path is not
answered "not ready". -/
theorem C2_witness :
    (⟨[("s2", ⟨.COMPLETE, some "out.mp4", none⟩)], fun _ _ => []⟩ :
        InferenceAPI).get_propagation_status "s2" =
      .ok ⟨.COMPLETE, some "out.mp4", none⟩ ∧
    ((download_segments (fun _ => false)
        ⟨[("s2", ⟨.COMPLETE, some "out.mp4", none⟩)], fun _ _ => []⟩ "s2" =
          .ok .notReady404) ↔
      ((⟨.COMPLETE, some "out.mp4", none⟩ : PropagationStatus).result_path = none ∨
        (⟨.COMPLETE, some "out.mp4", none⟩ : PropagationStatus).result_path = some "")) :=
  ⟨rfl,
    (C2_theorem (fun _ => false)
      ⟨[("s2", ⟨.COMPLETE, some "out.mp4", none⟩)], fun _ _ => []⟩
      "s2" ⟨.COMPLETE, some "out.mp4", none⟩ rfl).1⟩

/-- C3: anything GET /download_segments serves is the file designated by a
single clean filename component — the filename component of the stored
result_path: never empty, never "..", never ".", containing no '/' — so
it lies directly under the designated segments output root, and no stored
path components (".." segments or absolute prefixes) can reach outside
that root. -/
theorem C3_theorem (fs : List (List Char) → Bool) (api : InferenceAPI)
    (sid : String) (comps : List (List Char))
    (h : download_segments fs api sid = .ok (.serve comps)) :
    ∃ st s, api.get_propagation_status sid = .ok st ∧
      st.result_path = some s ∧
      comps = [pathName s.data] ∧
      pathName s.data ≠ [] ∧ pathName s.data ≠ dotdot ∧
      pathName s.data ≠ ['.'] ∧ ('/' ∉ pathName s.data) ∧
      fs comps = true := by
  unfold download_segments at h
  cases hg : api.get_propagation_status sid with
  | error e =>
    rw [hg] at h
    exact absurd h (by simp)
  | ok st =>
    rw [hg] at h
    dsimp only at h
    by_cases hc : st.result_path = none ∨ st.result_path = some ""
    · rw [if_pos hc] at h
      exact absurd (Except.ok.inj h) (by simp)
    · rw [if_neg hc] at h
      cases hrp : st.result_path with
      | none => exact absurd (Or.inl hrp) hc
      | some s =>
        rw [hrp] at h
        simp only [Option.getD_some] at h
        cases hsd : sendFromDirectory fs (pathName s.data) with
        | none =>
          rw [hsd] at h
          exact absurd (Except.ok.inj h) (by simp)
        | some comps' =>
          rw [hsd] at h
          have hcc : comps' = comps := by
            have h2 := Except.ok.inj h
            injection h2
          subst hcc
          rcases pathName_cases s.data with hnil | ⟨hne, hnd, hns⟩
          · rw [hnil] at hsd
            rw [sendFromDirectory_nil] at hsd
            exact absurd hsd (by simp)
          · have hsingle := sendFromDirectory_single hns hsd
            obtain ⟨_, _, hdd, hfs, _⟩ := sendFromDirectory_eq_some hsd
            refine ⟨st, s, rfl, hrp, hsingle, hne, ?_, hnd, hns, hfs⟩
            intro hed
            exact hdd (hed ▸ hsingle ▸ List.mem_singleton_self _)

/-- A concrete InferenceAPI whose COMPLETE session "s3" stores a
result_path with traversal components. -/
def api_traversal_s3 : InferenceAPI :=
  ⟨[("s3", ⟨.COMPLETE, some "/a/../evil", none⟩)], fun _ _ => []⟩

/-- A segments root that contains exactly the file "evil". -/
def fs_evil : List (List Char) → Bool :=
  fun l => decide (l = [['e', 'v', 'i', 'l']])

/-- C3 witness: serving a stored path "/a/../evil" serves exactly the
clean filename component "evil" under the segments root. -/
theorem C3_witness :
    download_segments fs_evil api_traversal_s3 "s3" =
      .ok (.serve [['e', 'v', 'i', 'l']]) ∧
    ∃ st s, api_traversal_s3.get_propagation_status "s3" = .ok st ∧
      st.result_path = some s ∧
      [['e', 'v', 'i', 'l']] = [pathName s.data] ∧
      pathName s.data ≠ [] ∧ pathName s.data ≠ dotdot ∧
      pathName s.data ≠ ['.'] ∧ ('/' ∉ pathName s.data) ∧
      fs_evil [['e', 'v', 'i', 'l']] = true :=
  ⟨rfl, C3_theorem fs_evil api_traversal_s3 "s3" [['e', 'v', 'i', 'l']] rfl⟩

/-- C4: GET /propagate_status fails with NotFound exactly for sessions
that were never started; for a started session it returns the serialized
PropagationStatus (state, optional result_path, optional error). -/
theorem C4_theorem (api : InferenceAPI) (sid : String) :
    (api.session_states.lookup sid = none →
      propagate_status api sid = .error .notFound) ∧
    (∀ st, api.session_states.lookup sid = some st →
      propagate_status api sid = .ok ⟨st.state, st.result_path, st.error⟩) := by
  constructor
  · intro h
    unfold propagate_status InferenceAPI.get_propagation_status
    rw [h]
  · intro st h
    unfold propagate_status InferenceAPI.get_propagation_status
    rw [h]
    rfl

/-- A concrete InferenceAPI registry with a single COMPLETE session. -/
def api_one_complete : InferenceAPI :=
  ⟨[("s4", ⟨.COMPLETE, some "out.zip", none⟩)], fun _ _ => []⟩

/-- C4 witness: an unknown session yields NotFound, a known one its
serialized status. -/
theorem C4_witness :
    (api_one_complete.session_states.lookup "zz" = none ∧
      propagate_status api_one_complete "zz" = .error .notFound) ∧
    (api_one_complete.session_states.lookup "s4" =
        some ⟨.COMPLETE, some "out.zip", none⟩ ∧
      propagate_status api_one_complete "s4" =
        .ok ⟨.COMPLETE, some "out.zip", none⟩) :=
  ⟨⟨rfl, (C4_theorem api_one_complete "zz").1 rfl⟩,
    ⟨rfl, (C4_theorem api_one_complete "s4").2 ⟨.COMPLETE, some "out.zip", none⟩ rfl⟩⟩

/-- C5: the streaming generator emits exactly one chunk per result
yielded by the inference collaborator, in the same order (the chunk
bodies are the results' serializations, in order), and ends with the
collaborator's sequence. -/
theorem C5_theorem (api : InferenceAPI) (boundary sid : String) (sfi : Nat) :
    (gen_track_with_mask_stream api boundary sid sfi).map MultipartChunk.body =
      (api.propagate_in_video ⟨"propagate_in_video", sid, sfi⟩).map
        PropagateDataResponse.to_json ∧
    (gen_track_with_mask_stream api boundary sid sfi).length =
      (api.propagate_in_video ⟨"propagate_in_video", sid, sfi⟩).length := by
  constructor
  · rw [gen_track_with_mask_stream, List.map_map]
    rfl
  · rw [gen_track_with_mask_stream, List.length_map]

/-- C6: every chunk emitted by the streaming generator carries exactly
the four required headers: the JSON/UTF-8 content type, the current frame
index marker "-1", the total frame count marker "-1", and the mask
encoding type tag. -/
theorem C6_theorem (api : InferenceAPI) (boundary sid : String) (sfi : Nat)
    (c : MultipartChunk)
    (h : c ∈ gen_track_with_mask_stream api boundary sid sfi) :
    c.headers = [("Content-Type", "application/json; charset=utf-8"),
      ("Frame-Current", "-1"), ("Frame-Total", "-1"),
      ("Mask-Type", "RLE[]")] :=
  headers_of_mem_gen h

/-- A concrete InferenceAPI that yields a single result "r0" for any
streaming request. -/
def api_one_result : InferenceAPI :=
  ⟨[], fun _ _ => [⟨"r0"⟩]⟩

/-- C6 witness: the single chunk emitted for a one-result collaborator
carries the four headers. -/
theorem C6_witness :
    (MultipartResponseBuilder.build "frame"
        [("Content-Type", "application/json; charset=utf-8"),
         ("Frame-Current", "-1"), ("Frame-Total", "-1"),
         ("Mask-Type", "RLE[]")] "r0") ∈
      gen_track_with_mask_stream api_one_result "frame" "s6" 0 ∧
    (MultipartResponseBuilder.build "frame"
        [("Content-Type", "application/json; charset=utf-8"),
         ("Frame-Current", "-1"), ("Frame-Total", "-1"),
         ("Mask-Type", "RLE[]")] "r0").headers =
      [("Content-Type", "application/json; charset=utf-8"),
       ("Frame-Current", "-1"), ("Frame-Total", "-1"),
       ("Mask-Type", "RLE[]")] :=
  ⟨by decide, C6_theorem api_one_result "frame" "s6" 0 _ (by decide)⟩

/-- C7: handling POST /propagate_in_video leaves the InferenceAPI state —
in particular the Propagation Session Registry (session_states) —
entirely unchanged: the streaming path starts no background job and
creates or mutates no session status entry. -/
theorem C7_theorem (api : InferenceAPI) (data : RequestBody) :
    (propagate_in_video api data).1.session_states = api.session_states ∧
    (propagate_in_video api data).1 = api :=
  ⟨rfl, rfl⟩

/-- C8: for each of the four static media routes, whenever resolution of
the requested path under the route's fixed root fails — in particular for
absolute paths and for paths whose normalization begins with a ".."
escape — the route fails with the single not-found error
("resource not found"), never with a different error; and a route can
only succeed by serving a file that resolution placed under the root
(nonempty clean components with no ".." escape). -/
theorem C8_theorem (fs : List (List Char) → Bool) (path : String) :
    (sendFromDirectory fs path.data = none →
      send_gallery_video fs path = .error "resource not found" ∧
      send_poster_image fs path = .error "resource not found" ∧
      send_uploaded_video fs path = .error "resource not found" ∧
      send_segment_file fs path = .error "resource not found") ∧
    (isAbs path.data = true → sendFromDirectory fs path.data = none) ∧
    ((normComps (splitSlash path.data)).headD [] = dotdot →
      sendFromDirectory fs path.data = none) ∧
    (∀ comps, send_gallery_video fs path = .ok comps →
      sendFromDirectory fs path.data = some comps ∧ comps ≠ [] ∧
      dotdot ∉ comps ∧ fs comps = true) := by
  refine ⟨?_, fun h => sendFromDirectory_of_isAbs h,
    fun h => sendFromDirectory_of_dotdot_head h, ?_⟩
  · intro h
    unfold send_gallery_video send_poster_image send_uploaded_video
      send_segment_file staticFileRoute
    rw [h]
    exact ⟨rfl, rfl, rfl, rfl⟩
  · intro comps h
    unfold send_gallery_video staticFileRoute at h
    cases hsd : sendFromDirectory fs path.data with
    | none =>
      rw [hsd] at h
      exact absurd h (by simp)
    | some comps' =>
      rw [hsd] at h
      have hcc : comps' = comps := Except.ok.inj h
      subst hcc
      obtain ⟨_, hne, hdd, hfs, _⟩ := sendFromDirectory_eq_some hsd
      exact ⟨rfl, hne, hdd, hfs⟩

/-- C8 witness: a ".." traversal path fails resolution and each static
route answers the not-found error on it. -/
theorem C8_witness :
    sendFromDirectory (fun _ => true) "../x".data = none ∧
    (send_gallery_video (fun _ => true) "../x" = .error "resource not found" ∧
      send_poster_image (fun _ => true) "../x" = .error "resource not found" ∧
      send_uploaded_video (fun _ => true) "../x" = .error "resource not found" ∧
      send_segment_file (fun _ => true) "../x" = .error "resource not found") :=
  ⟨rfl, (C8_theorem (fun _ => true) "../x").1 rfl⟩

/-- C9: when the request body omits start_frame_index, both POST routes
behave exactly as if start_frame_index were 0. -/
theorem C9_theorem (api : InferenceAPI) (data : RequestBody)
    (h : data.start_frame_index = none) :
    propagate_in_video api data =
      propagate_in_video api ⟨data.session_id, some 0⟩ ∧
    background_propagate api data =
      background_propagate api ⟨data.session_id, some 0⟩ := by
  cases data with
  | mk sid sfi =>
    simp only at h
    subst h
    exact ⟨rfl, rfl⟩

/-- C9 witness: a body without start_frame_index for session "s9". -/
theorem C9_witness :
    (⟨"s9", none⟩ : RequestBody).start_frame_index = none ∧
    (propagate_in_video ⟨[], fun _ _ => []⟩ ⟨"s9", none⟩ =
        propagate_in_video ⟨[], fun _ _ => []⟩ ⟨"s9", some 0⟩ ∧
      background_propagate ⟨[], fun _ _ => []⟩ ⟨"s9", none⟩ =
        background_propagate ⟨[], fun _ _ => []⟩ ⟨"s9", some 0⟩) :=
  ⟨rfl, C9_theorem ⟨[], fun _ _ => []⟩ ⟨"s9", none⟩ rfl⟩

/-- C10: in every emitted chunk the Frame-Current and Frame-Total header
values are the constant string "-1" and the Mask-Type header value is the
constant string "RLE[]", whatever the frame position, total count or
chunk content — a client cannot learn progress from these headers. -/
theorem C10_theorem (api : InferenceAPI) (boundary sid : String) (sfi : Nat)
    (i : Nat) (h : i < (gen_track_with_mask_stream api boundary sid sfi).length) :
    ((gen_track_with_mask_stream api boundary sid sfi).get ⟨i, h⟩).headers.lookup
        "Frame-Current" = some "-1" ∧
    ((gen_track_with_mask_stream api boundary sid sfi).get ⟨i, h⟩).headers.lookup
        "Frame-Total" = some "-1" ∧
    ((gen_track_with_mask_stream api boundary sid sfi).get ⟨i, h⟩).headers.lookup
        "Mask-Type" = some "RLE[]" := by
  have hmem := List.get_mem (gen_track_with_mask_stream api boundary sid sfi) i h
  have hh := headers_of_mem_gen hmem
  rw [hh]
  exact ⟨rfl, rfl, rfl⟩

/-- C10 witness: the first chunk of a one-result stream has the three
constant header values. -/
theorem C10_witness :
    0 < (gen_track_with_mask_stream api_one_result "frame" "s10" 5).length ∧
    (((gen_track_with_mask_stream api_one_result "frame" "s10" 5).get
        ⟨0, by decide⟩).headers.lookup "Frame-Current" = some "-1" ∧
      ((gen_track_with_mask_stream api_one_result "frame" "s10" 5).get
        ⟨0, by decide⟩).headers.lookup "Frame-Total" = some "-1" ∧
      ((gen_track_with_mask_stream api_one_result "frame" "s10" 5).get
        ⟨0, by decide⟩).headers.lookup "Mask-Type" = some "RLE[]") :=
  ⟨by decide, C10_theorem api_one_result "frame" "s10" 5 0 (by decide)⟩
